import Mathlib

set_option maxHeartbeats 1000000
set_option maxRecDepth 8192

/-!
Shallow embedding of the Khumalo healthcare document pipeline.

The embedded code:
* `src/lib/azure-storage.ts` — `createBlobServiceClient`, `uploadDocument`,
  `batchUploadDocuments` (the batch upload coordinator);
* `src/components/DocumentUpload.tsx` — `handleSubmit` (processing, upload,
  and the metadata-row writing loop);
* `lib/document-processor.ts` — `processDocument`, `processTextFile`,
  `processPDF`, `processWordDocument`, `processImageWithOCR`,
  `validateMedicalDocument`;
* `lib/azure-ai.ts` — `generatePatientSummary` with its local fallback.

External effects are made explicit parameters:
* the Azure network is an oracle `net : JsFile → UploadOutcome` giving the
  outcome of the blob upload of each file;
* third-party extraction libraries (pdf-parse, mammoth, tesseract) are an
  oracle record `Extractors`;
* the JavaScript `Date` API is a record `JsEnv` whose fields are the values
  the locale-rendering functions return at the instant of the call;
* JS exceptions are `Except String`; a `try/catch` is a `match` on it.

JS strings are Lean `String` (the embedded texts are ASCII, where the
UTF-16/`Char` difference is invisible); JS numbers that the code uses as
byte counts and indices are `Nat`, OCR confidences are `ℚ`.
-/

/-- JS truthiness of an optional string (`undefined`/`null`/`""` are falsy). -/
def jsTruthy : Option String → Bool
  | none => false
  | some s => s != ""

/-- JS truthiness of a plain string (`""` is falsy, used by `x || 'default'`). -/
def jsTruthyStr (s : String) : Bool := s != ""

/-- Whether `needle` starts `hay` (helper for `String.includes`). -/
def startsWithSeq : List Char → List Char → Bool
  | _, [] => true
  | [], _ :: _ => false
  | c :: cs, d :: ds => c == d && startsWithSeq cs ds

/-- Whether `needle` occurs contiguously in `hay` (helper for `String.includes`). -/
def containsSeq (hay needle : List Char) : Bool :=
  match hay with
  | [] => startsWithSeq [] needle
  | _ :: t => startsWithSeq hay needle || containsSeq t needle

/-- JS `hay.includes(needle)`. -/
def jsIncludes (hay needle : String) : Bool := containsSeq hay.data needle.data

/-- JS `s.toLowerCase()` (ASCII case folding). -/
def jsToLower (s : String) : String := String.mk (s.data.map Char.toLower)

/-- Remove trailing whitespace (the right half of JS `s.trim()`). -/
def rmTrailing (l : List Char) : List Char :=
  (l.reverse.dropWhile Char.isWhitespace).reverse

/-- JS `s.trim()`: drop leading and trailing whitespace. -/
def jsTrim (s : String) : String :=
  String.mk (rmTrailing (s.data.dropWhile Char.isWhitespace))

/-- Worker for `jsSplitWs`: `cur` is the current piece reversed, `inRun` says
whether the previous character was part of a whitespace run (already flushed). -/
def jsSplitWsGo : List Char → List Char → Bool → List String
  | [], cur, _ => [String.mk cur.reverse]
  | c :: cs, cur, inRun =>
    if c.isWhitespace then
      if inRun then jsSplitWsGo cs cur true
      else String.mk cur.reverse :: jsSplitWsGo cs [] true
    else jsSplitWsGo cs (c :: cur) false

/-- JS `s.split(/\s+/)`: split at maximal whitespace runs, keeping the (possibly
empty) pieces before the first and after the last run; `"".split(/\s+/)` is `[""]`. -/
def jsSplitWs (s : String) : List String := jsSplitWsGo s.data [] false

/-- `text.split(/\s+/).length`, the word count computed by the document processor. -/
def jsWordCount (text : String) : Nat := (jsSplitWs text).length

/-- Stable insert for `jsStableSort`. -/
def jsSortInsert (le : α → α → Bool) (a : α) : List α → List α
  | [] => [a]
  | b :: l => if le a b then a :: b :: l else b :: jsSortInsert le a l

/-- JS `Array.prototype.sort` with a consistent comparator: ES2019 sort is
stable, and every stable sort agreeing with the comparator's total preorder
yields the same list, so a stable insertion sort embeds it. `le a b` means
`comparator(a,b) <= 0`. -/
def jsStableSort (le : α → α → Bool) : List α → List α
  | [] => []
  | a :: l => jsSortInsert le a (jsStableSort le l)

/-! ### Azure blob storage (`src/lib/azure-storage.ts`) -/

/-- A JS `File` handle as the pipeline sees it: `id` stands for JS object
identity (each file object in the selected list is distinct), `content` is
what `file.text()` would read. -/
structure JsFile where
  id : Nat
  name : String
  size : Nat
  type : String
  content : String
deriving DecidableEq

/-- `UploadResult` of azure-storage.ts. -/
structure UploadResult where
  success : Bool
  url : Option String
  error : Option String
deriving DecidableEq

/-- The module-level Azure storage credentials (from `import.meta.env`). -/
structure StorageEnv where
  accountName : Option String
  accountKey : Option String

/-- Outcome of the Azure SDK calls performed by one `uploadDocument` call:
the upload response carried a request id (`ok url`), carried none
(`noRequestId`), or some SDK call rejected (`netError`). -/
inductive UploadOutcome where
  | ok (url : String)
  | noRequestId
  | netError (msg : String)

/-- `createBlobServiceClient`: throws when either credential is missing/empty. -/
def createBlobServiceClient (env : StorageEnv) : Except String Unit :=
  if jsTruthy env.accountName && jsTruthy env.accountKey then Except.ok ()
  else Except.error "Azure Storage credentials not configured"

/-- The `try` block of `uploadDocument`: create the client, perform the upload,
branch on `uploadResponse.requestId`. A rejected SDK call is a thrown error. -/
def uploadDocumentBody (env : StorageEnv) (net : JsFile → UploadOutcome)
    (file : JsFile) : Except String UploadResult := do
  let _ ← createBlobServiceClient env
  match net file with
  | UploadOutcome.ok url => pure { success := true, url := some url, error := none }
  | UploadOutcome.noRequestId =>
      pure { success := false, url := none
             error := some "Upload failed - no request ID returned" }
  | UploadOutcome.netError msg => Except.error msg

/-- `uploadDocument`: the whole body is wrapped in `try/catch`; the catch
converts any thrown error into a `success:false` result. -/
def uploadDocument (env : StorageEnv) (net : JsFile → UploadOutcome)
    (file : JsFile) : UploadResult :=
  match uploadDocumentBody env net file with
  | Except.ok r => r
  | Except.error e => { success := false, url := none, error := some e }

/-- The `for (let i = 0; i < files.length; i += batchSize)` loop of
`batchUploadDocuments` with `batchSize = 5`: each iteration maps
`uploadDocument` over `files.slice(i, i+5)`, appends the settled results, and
then calls `onProgress(i + batch.length, files.length)`. Returns the
accumulated `results` array and the trace of `onProgress` calls. -/
def batchGo (upload : JsFile → UploadResult) (total done : Nat) :
    List JsFile → List UploadResult × List (Nat × Nat)
  | [] => ([], [])
  | a :: b :: c :: d :: e :: rest =>
      let next := batchGo upload total (done + 5) rest
      ([upload a, upload b, upload c, upload d, upload e] ++ next.1,
       (done + 5, total) :: next.2)
  | fs => (fs.map upload, [(done + fs.length, total)])

/-- Return value of the batch coordinator plus the observable trace of the
`onProgress` callback (cumulative completed count, total). -/
structure BatchResult where
  successful : List UploadResult
  failed : List UploadResult
  progress : List (Nat × Nat)
deriving DecidableEq

/-- `batchUploadDocuments`: run the chunked loop, then partition `results`
with the two `filter` calls. -/
def batchUploadDocuments (env : StorageEnv) (net : JsFile → UploadOutcome)
    (files : List JsFile) : BatchResult :=
  let go := batchGo (uploadDocument env net) files.length 0 files
  { successful := go.1.filter (fun r => r.success)
    failed := go.1.filter (fun r => !r.success)
    progress := go.2 }

/-- JS `Promise.all` over already-started per-file upload promises: collect the
values in order, or reject with the first rejection. -/
def promiseAll : List (Except String α) → Except String (List α)
  | [] => Except.ok []
  | x :: xs => do
      let a ← x
      let as ← promiseAll xs
      pure (a :: as)

/-- The coordinator loop with JS exception semantics made explicit: a rejection
of any awaited upload promise would propagate out of the loop. -/
def batchGoE (upload : JsFile → Except String UploadResult) (total done : Nat) :
    List JsFile → Except String (List UploadResult × List (Nat × Nat))
  | [] => Except.ok ([], [])
  | a :: b :: c :: d :: e :: rest => do
      let br ← promiseAll ([a, b, c, d, e].map upload)
      let next ← batchGoE upload total (done + 5) rest
      pure (br ++ next.1, (done + 5, total) :: next.2)
  | fs => do
      let br ← promiseAll (fs.map upload)
      pure (br, [(done + fs.length, total)])

/-- `batchUploadDocuments` with exception propagation made explicit: the
per-file upload is `uploadDocument`, whose body catches everything, so the
promise it returns is always fulfilled (`Except.ok`). -/
def batchUploadDocumentsE (env : StorageEnv) (net : JsFile → UploadOutcome)
    (files : List JsFile) : Except String BatchResult :=
  (batchGoE (fun f => Except.ok (uploadDocument env net f)) files.length 0 files).map
    (fun go =>
      { successful := go.1.filter (fun r => r.success)
        failed := go.1.filter (fun r => !r.success)
        progress := go.2 })

/-! ### Document processor (`lib/document-processor.ts`) -/

/-- Metadata of a `ProcessedDocument`. -/
structure ProcessedMeta where
  pageCount : Option Nat
  wordCount : Nat
  confidence : Option ℚ
  language : Option String
deriving DecidableEq

/-- `ProcessedDocument` of document-processor.ts. -/
structure ProcessedDocument where
  text : String
  metadata : ProcessedMeta
deriving DecidableEq

/-- What `pdfParse` returns on success. -/
structure PdfData where
  text : String
  numpages : Nat
deriving DecidableEq

/-- What `mammoth.extractRawText` returns on success. -/
structure MammothResult where
  value : String
deriving DecidableEq

/-- What `worker.recognize` (tesseract) returns on success; `confidence` is
the engine's 0–100 score. -/
structure OcrData where
  text : String
  confidence : ℚ
  language : String
deriving DecidableEq

/-- The third-party extraction libraries as oracles; each call may throw. -/
structure Extractors where
  pdfParse : JsFile → Except String PdfData
  mammoth : JsFile → Except String MammothResult
  ocr : String → JsFile → Except String OcrData

/-- `processPDF` applied to the parse result. -/
def processPDF (data : PdfData) : ProcessedDocument :=
  { text := data.text
    metadata := { pageCount := some data.numpages
                  wordCount := jsWordCount data.text
                  confidence := some 1, language := none } }

/-- `processWordDocument` applied to the mammoth result. -/
def processWordDocument (result : MammothResult) : ProcessedDocument :=
  { text := result.value
    metadata := { pageCount := none
                  wordCount := jsWordCount result.value
                  confidence := some 1, language := none } }

/-- `processTextFile`: reads the file's text verbatim. -/
def processTextFile (file : JsFile) : ProcessedDocument :=
  { text := file.content
    metadata := { pageCount := none
                  wordCount := jsWordCount file.content
                  confidence := some 1, language := none } }

/-- `processImageWithOCR` applied to the recognition result (confidence is
normalized from 0–100 to 0–1). -/
def processImageWithOCR (data : OcrData) : ProcessedDocument :=
  { text := data.text
    metadata := { pageCount := none
                  wordCount := jsWordCount data.text
                  confidence := some (data.confidence / 100)
                  language := some data.language } }

/-- `ProcessingOptions` with the `DEFAULT_OPTIONS` values as field defaults;
`{ ...DEFAULT_OPTIONS, ...options }` is the record with defaults filled in. -/
structure ProcessingOptions where
  enableOCR : Bool := true
  ocrLanguage : String := "eng"
  maxFileSize : Nat := 50 * 1024 * 1024
  allowedTypes : List String :=
    ["application/pdf",
     "application/msword",
     "application/vnd.openxmlformats-officedocument.wordprocessingml.document",
     "text/plain",
     "image/jpeg", "image/png", "image/tiff", "image/bmp"]

/-- `processDocument`: size check, allow-list check, then the `switch` on the
declared MIME type inside a `try` whose catch re-throws with a
`Failed to process document:` prefix. -/
def processDocument (ext : Extractors) (opts : ProcessingOptions)
    (file : JsFile) : Except String ProcessedDocument :=
  if file.size > opts.maxFileSize then
    Except.error ("File too large. Maximum size: "
      ++ toString (opts.maxFileSize / (1024 * 1024)) ++ "MB")
  else if !(opts.allowedTypes.contains file.type) then
    Except.error ("Unsupported file type: " ++ file.type)
  else
    let dispatched : Except String ProcessedDocument :=
      if file.type == "application/pdf" then
        (ext.pdfParse file).map processPDF
      else if file.type == "application/msword"
          || file.type == "application/vnd.openxmlformats-officedocument.wordprocessingml.document" then
        (ext.mammoth file).map processWordDocument
      else if file.type == "text/plain" then
        Except.ok (processTextFile file)
      else if file.type == "image/jpeg" || file.type == "image/png"
          || file.type == "image/tiff" || file.type == "image/bmp" then
        if opts.enableOCR then (ext.ocr opts.ocrLanguage file).map processImageWithOCR
        else Except.error "OCR is required for image files"
      else Except.error ("Unsupported file type: " ++ file.type)
    match dispatched with
    | Except.ok r => Except.ok r
    | Except.error e => Except.error ("Failed to process document: " ++ e)

/-! ### Medical-relevance checker (`validateMedicalDocument`) -/

/-- ASCII digit, the JS regex `\d`. -/
def isAsciiDigit (c : Char) : Bool := '0' ≤ c && c ≤ '9'

/-- ASCII letter. -/
def isAsciiAlpha (c : Char) : Bool :=
  ('A' ≤ c && c ≤ 'Z') || ('a' ≤ c && c ≤ 'z')

/-- The JS regex word character `\w` = `[A-Za-z0-9_]`. -/
def isWordChar (c : Char) : Bool := isAsciiAlpha c || isAsciiDigit c || c == '_'

/-- The JS `\b` assertion before a match starting at a position whose previous
character is `prev` (`none` at the string start) and whose first character is `c`. -/
def boundaryBefore : Option Char → Char → Bool
  | none, c => isWordChar c
  | some p, c => isWordChar p != isWordChar c

/-- The JS `\b` assertion after a match whose last character is `last` and
which is followed by `rest`. -/
def boundaryAfter (last : Char) : List Char → Bool
  | [] => isWordChar last
  | c :: _ => isWordChar last != isWordChar c

/-- Consume exactly `n` ASCII digits, returning the remainder. -/
def matchDigits : Nat → List Char → Option (List Char)
  | 0, l => some l
  | _ + 1, [] => none
  | n + 1, c :: l => if isAsciiDigit c then matchDigits n l else none

/-- Consume one literal character. -/
def matchLit (ch : Char) : List Char → Option (List Char)
  | [] => none
  | c :: l => if c == ch then some l else none

/-- Consume `\d{a}-\d{b}-\d{c}`. -/
def matchSepDigits (a b c : Nat) (l : List Char) : Option (List Char) := do
  let l₁ ← matchDigits a l
  let l₂ ← matchLit '-' l₁
  let l₃ ← matchDigits b l₂
  let l₄ ← matchLit '-' l₃
  matchDigits c l₄

/-- `\b\d{a}-\d{b}-\d{c}\b` anchored at the current position (previous
character `prev`); the last matched character is a digit, so the trailing
`\b` holds iff the remainder starts with a non-word character or is empty. -/
def numPatternHere (a b c : Nat) (prev : Option Char) (l : List Char) : Bool :=
  match l with
  | [] => false
  | ch :: _ =>
    boundaryBefore prev ch &&
      (match matchSepDigits a b c l with
       | some [] => true
       | some (r :: _) => !isWordChar r
       | none => false)

/-- `regex.test`: try the anchored matcher at every position, tracking the
previous character for `\b`. -/
def scanPattern (hereP : Option Char → List Char → Bool) :
    Option Char → List Char → Bool
  | _, [] => false
  | prev, c :: rest => hereP prev (c :: rest) || scanPattern hereP (some c) rest

/-- `/\b\d{3}-\d{2}-\d{4}\b/.test(s)` (the SSN pattern). -/
def testSSN (s : String) : Bool := scanPattern (numPatternHere 3 2 4) none s.data

/-- `/\b\d{3}-\d{3}-\d{4}\b/.test(s)` (the phone pattern). -/
def testPhone (s : String) : Bool := scanPattern (numPatternHere 3 3 4) none s.data

/-- Character class `[A-Za-z0-9._%+-]` (the email local part). -/
def emailLocalChar (c : Char) : Bool :=
  isAsciiAlpha c || isAsciiDigit c
    || c == '.' || c == '_' || c == '%' || c == '+' || c == '-'

/-- Character class `[A-Za-z0-9.-]` (the email domain part). -/
def emailDomainChar (c : Char) : Bool :=
  isAsciiAlpha c || isAsciiDigit c || c == '.' || c == '-'

/-- Character class `[A-Z|a-z]` (the email TLD part; the class literally
contains the `|` character). -/
def emailTldChar (c : Char) : Bool :=
  ('A' ≤ c && c ≤ 'Z') || c == '|' || ('a' ≤ c && c ≤ 'z')

/-- All ways to consume one or more `p`-characters from the front: each entry
is (last consumed character, remainder). Used to decide the existence of a
match of a greedy `+`, which backtracking regex search also decides. -/
def plusRem (p : Char → Bool) : List Char → List (Char × List Char)
  | [] => []
  | c :: l => if p c then (c, l) :: plusRem p l else []

/-- The email regex `\b[A-Za-z0-9._%+-]+@[A-Za-z0-9.-]+\.[A-Z|a-z]{2,}\b`
anchored at the current position: a match exists iff some way of splitting
the quantified parts succeeds. -/
def emailHere (prev : Option Char) (l : List Char) : Bool :=
  match l with
  | [] => false
  | c₀ :: _ =>
    boundaryBefore prev c₀ &&
      (plusRem emailLocalChar l).any (fun pr₁ =>
        match pr₁.2 with
        | '@' :: l₂ =>
          (plusRem emailDomainChar l₂).any (fun pr₂ =>
            match pr₂.2 with
            | '.' :: c₅ :: l₅ =>
              emailTldChar c₅ &&
                (plusRem emailTldChar l₅).any (fun pr₃ =>
                  boundaryAfter pr₃.1 pr₃.2)
            | _ => false)
        | _ => false)

/-- The email pattern's `.test`. -/
def testEmail (s : String) : Bool := scanPattern emailHere none s.data

/-- The `medicalKeywords` list. -/
def medicalKeywords : List String :=
  ["patient", "diagnosis", "treatment", "medication", "symptoms",
   "blood pressure", "heart rate", "temperature", "weight", "height",
   "lab", "test", "result", "normal", "abnormal", "prescription"]

/-- Return type of `validateMedicalDocument`. -/
structure ValidationResult where
  isValid : Bool
  warnings : List String
  suggestions : List String
deriving DecidableEq

/-- `validateMedicalDocument`: short-text warning, keyword-density warning and
suggestion, personal-information warning (the three `/g` regexes are
constructed fresh inside every call, so each `test` starts at `lastIndex = 0`
and the function has no cross-call state); `isValid` iff no warnings. -/
def validateMedicalDocument (text : String) : ValidationResult :=
  let warnings₁ :=
    if text.length < 50 then
      ["Document appears to be very short and may not contain useful medical information"]
    else []
  let foundKeywords :=
    medicalKeywords.filter (fun keyword => jsIncludes (jsToLower text) (jsToLower keyword))
  let warnings₂ :=
    if foundKeywords.length < 3 then
      warnings₁ ++ ["Document may not contain sufficient medical information"]
    else warnings₁
  let suggestions :=
    if foundKeywords.length < 3 then ["Consider adding more clinical details or context"]
    else []
  let hasPersonalInfo := testSSN text || testPhone text || testEmail text
  let warnings₃ :=
    if hasPersonalInfo then
      warnings₂ ++ ["Document contains personal information that should be handled securely"]
    else warnings₂
  { isValid := warnings₃.length == 0, warnings := warnings₃, suggestions := suggestions }

/-! ### Upload form submit (`src/components/DocumentUpload.tsx`) -/

/-- One entry of `processedDocuments` in `handleSubmit` (the `metadata` field
is carried along but never read afterwards, so it is omitted). -/
structure ProcessedEntry where
  file : JsFile
  text : String
deriving DecidableEq

/-- One `createDocument` call's payload (a Document metadata row). -/
structure DocRow where
  patientId : String
  fileName : String
  filePath : String
  fileType : String
  fileSize : Nat
  description : Option String
  uploadedBy : String
  processedText : Option String
deriving DecidableEq

/-- What `handleSubmit` produces: the metadata rows written via
`createDocument`, the coordinator's return value, and the error banner. -/
structure SubmitOutcome where
  rows : List DocRow
  uploadResults : BatchResult
  errorMsg : Option String

/-- The processing loop of `handleSubmit`: each file is run through
`processDocument` (with default options); a file whose processing throws is
skipped (`catch` + continue), the rest are pushed onto `processedDocuments`.
The `validateMedicalDocument` call only logs warnings and is effect-free. -/
def processedDocumentsOf (ext : Extractors) (files : List JsFile) : List ProcessedEntry :=
  files.filterMap (fun f =>
    match processDocument ext {} f with
    | Except.ok p => some { file := f, text := p.text }
    | Except.error _ => none)

/-- `handleSubmit` after the early returns: process all files, call
`batchUploadDocuments` on the original `files` array, then for each index
`i < successful.length` call `createDocument` pairing `successful[i]` with
`files[i]` (zip realizes exactly that indexing) and looking up the processed
text by file object identity. -/
def handleSubmit (ext : Extractors) (env : StorageEnv) (net : JsFile → UploadOutcome)
    (files : List JsFile) (patientId description userId : String) : SubmitOutcome :=
  let processedDocuments := processedDocumentsOf ext files
  let uploadResults := batchUploadDocuments env net files
  let rows := (files.zip uploadResults.successful).map (fun fr =>
    { patientId := patientId
      fileName := fr.1.name
      filePath := fr.2.url.getD ""
      fileType := fr.1.type
      fileSize := fr.1.size
      description := if jsTruthyStr description then some description else none
      uploadedBy := userId
      processedText :=
        (processedDocuments.find? (fun p => p.file.id == fr.1.id)).map
          (fun p => p.text.take 1000) })
  { rows := rows
    uploadResults := uploadResults
    errorMsg :=
      if uploadResults.failed.length > 0 then
        some (toString uploadResults.failed.length ++ " files failed to upload. "
          ++ toString uploadResults.successful.length ++ " files uploaded successfully.")
      else none }

/-! ### Summary generator (`lib/azure-ai.ts`) -/

/-- `Patient` entity of azure-database.ts. -/
structure Patient where
  partitionKey : String
  rowKey : String
  firstName : String
  lastName : String
  dateOfBirth : String
  email : Option String
  phone : Option String
  address : Option String
  medicalRecordNumber : String
  createdBy : String
  createdAt : String
  updatedAt : String
deriving DecidableEq

/-- `Document` entity of azure-database.ts. -/
structure Document where
  partitionKey : String
  rowKey : String
  fileName : String
  filePath : String
  fileType : String
  fileSize : Nat
  description : Option String
  uploadedBy : String
  createdAt : String
  processedText : Option String
deriving DecidableEq

/-- The JavaScript `Date` API at the instant of the call: the values its
rendering functions return. `localeDateString s` is
`new Date(s).toLocaleDateString('en-US', …)`, `localeDateTimeString s` is
`new Date(s).toLocaleString('en-US', …)`, `parseMs s` is
`new Date(s).getTime()`, `ageOf dob` is the source's `calculateAge(dob)`
(which reads the current date), and `nowString` is
`new Date().toLocaleString()`. All but `parseMs` depend on the wall clock
and/or locale of the invocation instant. -/
structure JsEnv where
  localeDateString : String → String
  localeDateTimeString : String → String
  parseMs : String → Int
  ageOf : String → Int
  nowString : String

/-- `(bytes/k).toFixed(1)` for nonnegative values: round half up to one
decimal (the double-rounding of IEEE `toFixed` agrees on the inputs used). -/
def toFixed1 (num den : Nat) : String :=
  let t := (num * 10 + den / 2) / den
  toString (t / 10) ++ "." ++ toString (t % 10)

/-- The fallback's `formatFileSize`. -/
def formatFileSize (bytes : Nat) : String :=
  if bytes < 1024 then toString bytes ++ " B"
  else if bytes < 1024 * 1024 then toFixed1 bytes 1024 ++ " KB"
  else toFixed1 bytes (1024 * 1024) ++ " MB"

/-- Append a document to its type's group, preserving first-occurrence key
order (JS object property insertion order, as `Object.entries` reports it). -/
def groupInsert (key : String) (d : Document) :
    List (String × List Document) → List (String × List Document)
  | [] => [(key, [d])]
  | (k, ds) :: rest =>
      if k == key then (k, ds ++ [d]) :: rest
      else (k, ds) :: groupInsert key d rest

/-- The fallback's `byType` reduce: group by `d.fileType || 'unknown'`. -/
def byType (docs : List Document) : List (String × List Document) :=
  docs.foldl (fun acc d =>
    groupInsert (if jsTruthyStr d.fileType then d.fileType else "unknown") d acc) []

/-- One line of the fallback's `All Documents` listing (1-based index). -/
def docLine (env : JsEnv) (idxd : Nat × Document) : String :=
  "  " ++ toString (idxd.1 + 1) ++ ". " ++ idxd.2.fileName ++ " ("
    ++ (if jsTruthyStr idxd.2.fileType then idxd.2.fileType else "unknown") ++ ", "
    ++ formatFileSize idxd.2.fileSize ++ ") — uploaded "
    ++ env.localeDateTimeString idxd.2.createdAt
    ++ (match idxd.2.description with
        | some s => if jsTruthyStr s then " — " ++ s else ""
        | none => "")

/-- The fallback's `docLines`: documents sorted newest-first by
`new Date(createdAt).getTime()` (stable sort with comparator
`timeB - timeA`), each rendered with its 1-based position. -/
def docLines (env : JsEnv) (docs : List Document) : List String :=
  ((jsStableSort (fun a b => env.parseMs b.createdAt ≤ env.parseMs a.createdAt) docs).enum).map
    (docLine env)

/-- The `Demographics` block of the fallback template, starting with the two
newlines after the name line; optional contact lines render only when truthy. -/
def demographicsPart (env : JsEnv) (p : Patient) : String :=
  "\n\nDemographics:\n- Medical Record Number: " ++ p.medicalRecordNumber
    ++ "\n- Date of Birth: " ++ env.localeDateString p.dateOfBirth
    ++ "\n- Age: " ++ toString (env.ageOf p.dateOfBirth) ++ " years\n"
    ++ (if jsTruthy p.email then "- Email: " ++ p.email.getD "" ++ "\n" else "")
    ++ (if jsTruthy p.phone then "- Phone: " ++ p.phone.getD "" ++ "\n" else "")
    ++ (if jsTruthy p.address then "- Address: " ++ p.address.getD "" ++ "\n" else "")

/-- The `Documents Overview` block; the `Most Recent Upload` line uses
`documents[0]` of the list as given (not the sorted copy). -/
def overviewPart (env : JsEnv) (docs : List Document) : String :=
  "\n\n" ++ "Documents Overview:\n- Total Documents: " ++ toString docs.length ++ "\n"
    ++ (match docs with
        | [] => ""
        | d :: _ => "- Most Recent Upload: " ++ env.localeDateTimeString d.createdAt ++ "\n")
    ++ (match docs with
        | [] => ""
        | _ :: _ => "- Document Types: "
            ++ String.intercalate ", "
                ((byType docs).map (fun ta => ta.1 ++ " (" ++ toString ta.2.length ++ ")"))
            ++ "\n")

/-- The `All Documents` block. -/
def allDocsPart (env : JsEnv) (docs : List Document) : String :=
  "\n\nAll Documents:\n"
    ++ (match docLines env docs with
        | [] => "  None"
        | ls => String.intercalate "\n" ls)

/-- The fixed clinical-notes boilerplate up to and including `Generated`. -/
def closingLit : String :=
  "\n\nClinical Notes (auto-generated):\n- Review abnormal findings, test results and care plans in attached documents.\n- Ensure follow-up based on most recent uploads and clinical context.\n\nGenerated"

/-- The local (non-AI) fallback summary: the template literal of
`generatePatientSummary` with `.trim()` applied. -/
def localFallbackSummary (env : JsEnv) (p : Patient) (docs : List Document) : String :=
  jsTrim ("Patient Summary for " ++ p.firstName ++ " " ++ p.lastName
    ++ demographicsPart env p ++ overviewPart env docs ++ allDocsPart env docs
    ++ closingLit ++ ": " ++ env.nowString)

/-- The Azure OpenAI configuration from `import.meta.env`. -/
structure AzureAICfg where
  endpoint : Option String
  apiKey : Option String
  deployment : Option String

/-- Whether the remote path's guard `azureEndpoint && azureApiKey &&
azureDeployment` holds. -/
def azureConfigured (cfg : AzureAICfg) : Bool :=
  jsTruthy cfg.endpoint && jsTruthy cfg.apiKey && jsTruthy cfg.deployment

/-- Outcome of the remote summarization call: the fetch (or response parsing)
threw, the response was non-2xx (which the code turns into a throw), or it
succeeded with `data.choices?.[0]?.message?.content` being `content`. -/
inductive RemoteOutcome where
  | netFail (msg : String)
  | httpError (status : Nat)
  | success (content : Option String)

/-- `generatePatientSummary`: when configured, try the remote path and return
its trimmed body if non-empty; every other route (unconfigured, thrown fetch,
non-ok status, empty/absent completion) falls through to the local fallback. -/
def generatePatientSummary (cfg : AzureAICfg) (remote : RemoteOutcome)
    (env : JsEnv) (patient : Patient) (documents : List Document) : String :=
  if azureConfigured cfg then
    match remote with
    | RemoteOutcome.success (some content) =>
        if (jsTrim content).length > 0 then jsTrim content
        else localFallbackSummary env patient documents
    | RemoteOutcome.success none => localFallbackSummary env patient documents
    | _ => localFallbackSummary env patient documents
  else localFallbackSummary env patient documents

/-! ### Concrete fixtures for evaluated claims and witnesses -/

/-- An extractor oracle whose library calls all throw; the fixture claims only
exercise paths that never reach these calls (or treat the file as unprocessable). -/
def extStub : Extractors :=
  { pdfParse := fun _ => Except.error "pdf-parse failed"
    mammoth := fun _ => Except.error "mammoth failed"
    ocr := fun _ _ => Except.error "tesseract failed" }

/-- Storage credentials present. -/
def envOk : StorageEnv := { accountName := some "acct", accountKey := some "key" }

/-- Storage credentials absent. -/
def envMissing : StorageEnv := { accountName := none, accountKey := none }

/-- Fixture file whose upload fails on the network. -/
def fileA : JsFile :=
  { id := 0, name := "scan-a.pdf", size := 100, type := "application/pdf", content := "" }

/-- Fixture file whose upload succeeds. -/
def fileB : JsFile :=
  { id := 1, name := "scan-b.pdf", size := 200, type := "application/pdf", content := "" }

/-- Network oracle for the two-file batch: the first upload rejects, the
second fulfills. -/
def netAB : JsFile → UploadOutcome := fun f =>
  if f.id == 0 then UploadOutcome.netError "Network error" else UploadOutcome.ok "https://blob/scan-b"

/-- A text file one byte over the 50 MiB limit. -/
def bigFile : JsFile :=
  { id := 0, name := "big.txt", size := 50 * 1024 * 1024 + 1, type := "text/plain", content := "" }

/-- Network oracle that fulfills every upload. -/
def netAllOk : JsFile → UploadOutcome := fun _ => UploadOutcome.ok "https://blob/big"

/-- Seven fixture files for the progress-callback scenario. -/
def sevenFiles : List JsFile :=
  (List.range 7).map (fun i =>
    { id := i, name := "f" ++ toString i, size := 10, type := "text/plain", content := "w" })

/-- Unconfigured Azure OpenAI environment. -/
def cfgNone : AzureAICfg := { endpoint := none, apiKey := none, deployment := none }

/-- Fixture patient. -/
def patientJane : Patient :=
  { partitionKey := "patient", rowKey := "patient-1"
    firstName := "Jane", lastName := "Doe"
    dateOfBirth := "1985-04-12"
    email := none, phone := none, address := none
    medicalRecordNumber := "MRN-00001"
    createdBy := "u1", createdAt := "2025-01-01T00:00:00Z", updatedAt := "2025-01-01T00:00:00Z" }

/-- A date environment as of one instant. -/
def jsEnvAt (now : String) : JsEnv :=
  { localeDateString := fun _ => "Apr 12, 1985"
    localeDateTimeString := fun _ => "Jan 1, 2025, 09:00 AM"
    parseMs := fun _ => 0
    ageOf := fun _ => 40
    nowString := now }

/-- The date environment of a first invocation. -/
def envT1 : JsEnv := jsEnvAt "1/1/2025, 10:00:00 AM"

/-- The date environment of a second invocation, one minute later. -/
def envT2 : JsEnv := jsEnvAt "1/1/2025, 10:01:00 AM"


/-- Decidable equality of `Except` values, for evaluating claims on concrete
inputs. -/
instance instDecEqExcept [DecidableEq E] [DecidableEq A] : DecidableEq (Except E A) :=
  fun a b =>
    match a, b with
    | Except.ok x, Except.ok y =>
        if h : x = y then isTrue (by rw [h]) else isFalse (by simp [h])
    | Except.error x, Except.error y =>
        if h : x = y then isTrue (by rw [h]) else isFalse (by simp [h])
    | Except.ok _, Except.error _ => isFalse (by simp)
    | Except.error _, Except.ok _ => isFalse (by simp)

/-! ### Helper lemmas -/

/-- The split worker always produces at least one piece. -/
theorem jsSplitWsGo_length_pos (l : List Char) :
    ∀ (cur : List Char) (inRun : Bool), 1 ≤ (jsSplitWsGo l cur inRun).length := by
  induction l with
  | nil => intro cur inRun; simp [jsSplitWsGo]
  | cons c cs ih =>
      intro cur inRun
      by_cases hc : c.isWhitespace = true
      · by_cases hb : inRun = true
        · simpa [jsSplitWsGo, hc, hb] using ih cur true
        · simp [jsSplitWsGo, hc, hb]
      · simpa [jsSplitWsGo, hc] using ih (c :: cur) false

/-- Partitioning a list by a boolean predicate accounts for every element. -/
theorem length_filter_bool_add (p : α → Bool) (l : List α) :
    (l.filter p).length + (l.filter (fun a => !p a)).length = l.length := by
  induction l with
  | nil => simp
  | cons a l ih =>
      by_cases hp : p a = true
      · simp [List.filter_cons, hp]; omega
      · simp only [Bool.not_eq_true] at hp
        simp [List.filter_cons, hp]; omega

/-- The chunked upload loop produces exactly the in-order map of the per-file
upload over the input list. -/
theorem batchGo_results (u : JsFile → UploadResult) (total : Nat) :
    ∀ (n done : Nat) (fs : List JsFile), fs.length ≤ n →
      (batchGo u total done fs).1 = fs.map u := by
  intro n
  induction n with
  | zero =>
      intro done fs h
      have hfs : fs = [] := List.eq_nil_of_length_eq_zero (Nat.le_zero.mp h)
      subst hfs; rfl
  | succ n ih =>
      intro done fs h
      rcases fs with _ | ⟨a, _ | ⟨b, _ | ⟨c, _ | ⟨d, _ | ⟨e, rest⟩⟩⟩⟩⟩
      · rfl
      · rfl
      · rfl
      · rfl
      · rfl
      · have hr : rest.length ≤ n := by
          simp only [List.length_cons] at h; omega
        show [u a, u b, u c, u d, u e] ++ (batchGo u total (done + 5) rest).1
            = (a :: b :: c :: d :: e :: rest).map u
        rw [ih (done + 5) rest hr]
        simp

/-- Closed form of the `onProgress` trace of the chunked loop: one call per
chunk, the `j`-th (0-based) reporting `done + min (5*(j+1)) fs.length`. -/
theorem batchGo_progress (u : JsFile → UploadResult) (total : Nat) :
    ∀ (n done : Nat) (fs : List JsFile), fs.length ≤ n →
      (batchGo u total done fs).2 =
        (List.range ((fs.length + 4) / 5)).map
          (fun j => (done + min (5 * (j + 1)) fs.length, total)) := by
  intro n
  induction n with
  | zero =>
      intro done fs h
      have hfs : fs = [] := List.eq_nil_of_length_eq_zero (Nat.le_zero.mp h)
      subst hfs; simp [batchGo]
  | succ n ih =>
      intro done fs h
      rcases fs with _ | ⟨a, _ | ⟨b, _ | ⟨c, _ | ⟨d, _ | ⟨e, rest⟩⟩⟩⟩⟩
      · simp [batchGo]
      · show [(done + 1, total)] = _
        have h1 : (([a] : List JsFile).length + 4) / 5 = 1 := by simp
        rw [h1]
        simp [List.range_succ]
      · show [(done + 2, total)] = _
        have h1 : (([a, b] : List JsFile).length + 4) / 5 = 1 := by simp
        rw [h1]
        simp [List.range_succ]
      · show [(done + 3, total)] = _
        have h1 : (([a, b, c] : List JsFile).length + 4) / 5 = 1 := by simp
        rw [h1]
        simp [List.range_succ]
      · show [(done + 4, total)] = _
        have h1 : (([a, b, c, d] : List JsFile).length + 4) / 5 = 1 := by simp
        rw [h1]
        simp [List.range_succ]
      · have hr : rest.length ≤ n := by
          simp only [List.length_cons] at h; omega
        show (done + 5, total) :: (batchGo u total (done + 5) rest).2 = _
        rw [ih (done + 5) rest hr]
        have hlen : (a :: b :: c :: d :: e :: rest : List JsFile).length = rest.length + 5 := by
          simp
        rw [hlen]
        have harith : (rest.length + 5 + 4) / 5 = (rest.length + 4) / 5 + 1 := by omega
        rw [harith, List.range_succ_eq_map]
        rw [List.map_cons, List.map_map]
        congr 1
        · simp only [Prod.mk.injEq]
          exact ⟨by omega, trivial⟩
        · apply List.map_congr_left
          intro j hj
          simp only [Function.comp_apply, Nat.succ_eq_add_one, Prod.mk.injEq]
          exact ⟨by omega, trivial⟩

/-- `Promise.all` over promises that are all fulfilled is fulfilled with the
in-order list of values. -/
theorem promiseAll_ok (u : α → β) (l : List α) :
    promiseAll (l.map (fun a => Except.ok (u a))) = Except.ok (l.map u) := by
  induction l with
  | nil => rfl
  | cons a l ih =>
      show (do
        let x ← Except.ok (u a)
        let as ← promiseAll (l.map (fun a => Except.ok (u a)))
        pure (x :: as) : Except String (List β)) = _
      rw [ih]
      rfl

/-- The coordinator loop run with exception propagation made explicit never
rejects when the per-file uploader always fulfills, and its value is the pure
loop's value. -/
theorem batchGoE_ok (u : JsFile → UploadResult) (total : Nat) :
    ∀ (n done : Nat) (fs : List JsFile), fs.length ≤ n →
      batchGoE (fun f => Except.ok (u f)) total done fs
        = Except.ok (batchGo u total done fs) := by
  intro n
  induction n with
  | zero =>
      intro done fs h
      have hfs : fs = [] := List.eq_nil_of_length_eq_zero (Nat.le_zero.mp h)
      subst hfs; rfl
  | succ n ih =>
      intro done fs h
      rcases fs with _ | ⟨a, _ | ⟨b, _ | ⟨c, _ | ⟨d, _ | ⟨e, rest⟩⟩⟩⟩⟩
      · rfl
      · rfl
      · rfl
      · rfl
      · rfl
      · have hr : rest.length ≤ n := by
          simp only [List.length_cons] at h; omega
        show (do
          let br ← promiseAll ([a, b, c, d, e].map (fun f => Except.ok (u f)))
          let next ← batchGoE (fun f => Except.ok (u f)) total (done + 5) rest
          pure (br ++ next.1, (done + 5, total) :: next.2) : Except String _) = _
        rw [promiseAll_ok, ih (done + 5) rest hr]
        rfl

/-- Element of a mapped range at a valid index. -/
theorem getD_range_map (f : Nat → α) (m j : Nat) (d : α) (h : j < m) :
    ((List.range m).map f).getD j d = f j := by
  rw [List.getD_eq_getElem?_getD, List.getElem?_map, List.getElem?_range h]
  rfl

/-! ### Claim theorems -/

/-- C5: for every batch, with `k` the number of files whose upload fails, the
coordinator returns exactly `N - k` results in `successful` and exactly `k`
results in `failed` (every input file yields exactly one result). -/
theorem batch_counts_exact (env : StorageEnv) (net : JsFile → UploadOutcome)
    (files : List JsFile) :
    (batchUploadDocuments env net files).successful.length
      = files.length - (files.map (uploadDocument env net)).countP (fun r => !r.success)
    ∧ (batchUploadDocuments env net files).failed.length
      = (files.map (uploadDocument env net)).countP (fun r => !r.success) := by
  have hres : (batchGo (uploadDocument env net) files.length 0 files).1
      = files.map (uploadDocument env net) :=
    batchGo_results _ _ files.length 0 files (le_refl _)
  constructor
  · show ((batchGo (uploadDocument env net) files.length 0 files).1.filter
        (fun r => r.success)).length = _
    rw [hres]
    have h1 := length_filter_bool_add (fun r : UploadResult => r.success)
      (files.map (uploadDocument env net))
    have h2 := List.countP_eq_length_filter (fun r : UploadResult => !r.success)
      (files.map (uploadDocument env net))
    have h3 : (files.map (uploadDocument env net)).length = files.length :=
      List.length_map _ _
    omega
  · show ((batchGo (uploadDocument env net) files.length 0 files).1.filter
        (fun r => !r.success)).length = _
    rw [hres]
    exact (List.countP_eq_length_filter _ _).symm

/-- C9: the coordinator's results are one per input file in input order;
`successful` is the in-order sublist of succeeding results and `failed` the
in-order sublist of failing ones, so input order is preserved in both. -/
theorem batch_preserves_input_order (env : StorageEnv) (net : JsFile → UploadOutcome)
    (files : List JsFile) :
    (batchUploadDocuments env net files).successful
      = (files.map (uploadDocument env net)).filter (fun r => r.success)
    ∧ (batchUploadDocuments env net files).failed
      = (files.map (uploadDocument env net)).filter (fun r => !r.success)
    ∧ (batchUploadDocuments env net files).successful.length
        + (batchUploadDocuments env net files).failed.length = files.length := by
  have hres : (batchGo (uploadDocument env net) files.length 0 files).1
      = files.map (uploadDocument env net) :=
    batchGo_results _ _ files.length 0 files (le_refl _)
  refine ⟨?_, ?_, ?_⟩
  · show (batchGo (uploadDocument env net) files.length 0 files).1.filter
        (fun r => r.success) = _
    rw [hres]
  · show (batchGo (uploadDocument env net) files.length 0 files).1.filter
        (fun r => !r.success) = _
    rw [hres]
  · show ((batchGo (uploadDocument env net) files.length 0 files).1.filter
        (fun r => r.success)).length
      + ((batchGo (uploadDocument env net) files.length 0 files).1.filter
        (fun r => !r.success)).length = files.length
    rw [hres]
    have h1 := length_filter_bool_add (fun r : UploadResult => r.success)
      (files.map (uploadDocument env net))
    have h3 : (files.map (uploadDocument env net)).length = files.length :=
      List.length_map _ _
    omega

/-- C3: every single-file upload failure is caught inside `uploadDocument` and
converted to a `success:false` result carrying the thrown message, and the
coordinator, run with JS exception semantics, never rejects — in particular it
raises for no partial failure (even a total configuration failure is converted
per-file by the catch inside `uploadDocument`). -/
theorem upload_failures_contained (env : StorageEnv) (net : JsFile → UploadOutcome)
    (files : List JsFile) :
    (∀ (f : JsFile) (msg : String), uploadDocumentBody env net f = Except.error msg →
        uploadDocument env net f = { success := false, url := none, error := some msg })
    ∧ batchUploadDocumentsE env net files
        = Except.ok (batchUploadDocuments env net files) := by
  constructor
  · intro f msg h
    unfold uploadDocument
    rw [h]
  · unfold batchUploadDocumentsE batchUploadDocuments
    rw [batchGoE_ok (uploadDocument env net) files.length files.length 0 files (le_refl _)]
    rfl

/-- Witness for C3 at a concrete batch: the first file's upload rejects with
`Network error`, which surfaces as a caught `success:false` result, and the
coordinator fulfills. -/
theorem upload_failures_contained_witness :
    uploadDocument envOk netAB fileA
      = { success := false, url := none, error := some "Network error" }
    ∧ batchUploadDocumentsE envOk netAB [fileA, fileB]
        = Except.ok (batchUploadDocuments envOk netAB [fileA, fileB]) :=
  ⟨(upload_failures_contained envOk netAB [fileA, fileB]).1 fileA "Network error" rfl,
   (upload_failures_contained envOk netAB [fileA, fileB]).2⟩

/-- C6: for a nonempty batch of `N` files the coordinator invokes the progress
callback exactly `⌈N/5⌉ = (N+4)/5` times, with cumulative counts
`min (5*(j+1)) N` that are monotonically non-decreasing and equal `N` exactly
at the final invocation. -/
theorem batch_progress_callback_spec (env : StorageEnv) (net : JsFile → UploadOutcome)
    (files : List JsFile) (hne : files ≠ []) :
    (batchUploadDocuments env net files).progress
      = (List.range ((files.length + 4) / 5)).map
          (fun j => (min (5 * (j + 1)) files.length, files.length))
    ∧ (batchUploadDocuments env net files).progress.length = (files.length + 4) / 5
    ∧ (∀ i j, i ≤ j → j < (batchUploadDocuments env net files).progress.length →
        ((batchUploadDocuments env net files).progress.getD i (0, 0)).1
          ≤ ((batchUploadDocuments env net files).progress.getD j (0, 0)).1)
    ∧ ((batchUploadDocuments env net files).progress.getD
          ((files.length + 4) / 5 - 1) (0, 0)).1 = files.length
    ∧ (∀ j, j < (files.length + 4) / 5 - 1 →
        ((batchUploadDocuments env net files).progress.getD j (0, 0)).1 < files.length) := by
  have hN : files.length ≠ 0 := by
    intro h0; exact hne (List.eq_nil_of_length_eq_zero h0)
  have hprog : (batchUploadDocuments env net files).progress
      = (List.range ((files.length + 4) / 5)).map
          (fun j => (min (5 * (j + 1)) files.length, files.length)) := by
    show (batchGo (uploadDocument env net) files.length 0 files).2 = _
    rw [batchGo_progress (uploadDocument env net) files.length files.length 0 files (le_refl _)]
    apply List.map_congr_left
    intro j hj
    simp
  refine ⟨hprog, ?_, ?_, ?_, ?_⟩
  · rw [hprog]; simp
  · intro i j hij hj
    rw [hprog] at hj ⊢
    simp only [List.length_map, List.length_range] at hj
    rw [getD_range_map _ _ _ _ (lt_of_le_of_lt hij hj), getD_range_map _ _ _ _ hj]
    omega
  · have hm : (files.length + 4) / 5 - 1 < (files.length + 4) / 5 := by omega
    rw [hprog, getD_range_map _ _ _ _ hm]
    omega
  · intro j hj
    have hm : j < (files.length + 4) / 5 := by omega
    rw [hprog, getD_range_map _ _ _ _ hm]
    omega

/-- Witness for C6: the spec's scenario of a batch of 7 files — exactly two
progress invocations, reporting 5 then 7. -/
theorem batch_progress_callback_spec_witness :
    (batchUploadDocuments envOk netAllOk sevenFiles).progress
      = (List.range ((sevenFiles.length + 4) / 5)).map
          (fun j => (min (5 * (j + 1)) sevenFiles.length, sevenFiles.length))
    ∧ (batchUploadDocuments envOk netAllOk sevenFiles).progress.length
        = (sevenFiles.length + 4) / 5
    ∧ (∀ i j, i ≤ j → j < (batchUploadDocuments envOk netAllOk sevenFiles).progress.length →
        ((batchUploadDocuments envOk netAllOk sevenFiles).progress.getD i (0, 0)).1
          ≤ ((batchUploadDocuments envOk netAllOk sevenFiles).progress.getD j (0, 0)).1)
    ∧ ((batchUploadDocuments envOk netAllOk sevenFiles).progress.getD
          ((sevenFiles.length + 4) / 5 - 1) (0, 0)).1 = sevenFiles.length
    ∧ (∀ j, j < (sevenFiles.length + 4) / 5 - 1 →
        ((batchUploadDocuments envOk netAllOk sevenFiles).progress.getD j (0, 0)).1
          < sevenFiles.length) :=
  batch_progress_callback_spec envOk netAllOk sevenFiles (by decide)

/-- C1 (refuting evaluation): in the two-file batch where file #1's upload
fails and file #2's succeeds, `handleSubmit` still writes exactly
`successful.length = 1` metadata row, but that row carries the FAILED file's
name paired with the other file's blob URL — a metadata row is associated
with a file whose upload failed. -/
theorem metadata_row_written_for_failed_file :
    (uploadDocument envOk netAB fileA).success = false
    ∧ (uploadDocument envOk netAB fileB).url = some "https://blob/scan-b"
    ∧ (batchUploadDocuments envOk netAB [fileA, fileB]).successful.length = 1
    ∧ (handleSubmit extStub envOk netAB [fileA, fileB] "p1" "" "u1").rows.map
        (fun r => r.fileName) = ["scan-a.pdf"]
    ∧ (handleSubmit extStub envOk netAB [fileA, fileB] "p1" "" "u1").rows.map
        (fun r => r.filePath) = ["https://blob/scan-b"]
    ∧ fileA.name = "scan-a.pdf" := by
  decide

/-- C2 (refuting evaluation): a text file one byte over the 50 MiB limit is
rejected by the validator with the `File too large` error (and yields no
processed text), yet `handleSubmit` passes the original `files` array to
`batchUploadDocuments`, so the file is uploaded, appears in `successful`, and
even gets a metadata row. -/
theorem oversized_file_still_uploaded :
    processDocument extStub {} bigFile
      = Except.error "File too large. Maximum size: 50MB"
    ∧ processedDocumentsOf extStub [bigFile] = []
    ∧ (uploadDocument envOk netAllOk bigFile).success = true
    ∧ (handleSubmit extStub envOk netAllOk [bigFile] "p1" "" "u1").uploadResults.successful
        = [uploadDocument envOk netAllOk bigFile]
    ∧ (handleSubmit extStub envOk netAllOk [bigFile] "p1" "" "u1").rows.map
        (fun r => r.fileName) = ["big.txt"] := by
  decide

/-- C8: the medical-relevance checker is deterministic — two calls on
identical text yield the same `isValid` flag, the same warnings, and the same
suggestions (its only potential state, the `/g` regexes, is constructed fresh
inside every call). -/
theorem validateMedicalDocument_deterministic (t₁ t₂ : String) (h : t₁ = t₂) :
    validateMedicalDocument t₁ = validateMedicalDocument t₂
    ∧ (validateMedicalDocument t₁).isValid = (validateMedicalDocument t₂).isValid
    ∧ (validateMedicalDocument t₁).warnings = (validateMedicalDocument t₂).warnings
    ∧ (validateMedicalDocument t₁).suggestions = (validateMedicalDocument t₂).suggestions := by
  subst h
  exact ⟨rfl, rfl, rfl, rfl⟩

/-- Witness for C8 at a concrete clinical text. -/
theorem validateMedicalDocument_deterministic_witness :
    validateMedicalDocument
        "Patient diagnosis: hypertension. Treatment plan and medication prescribed after lab test results."
      = validateMedicalDocument
        "Patient diagnosis: hypertension. Treatment plan and medication prescribed after lab test results."
    ∧ (validateMedicalDocument
        "Patient diagnosis: hypertension. Treatment plan and medication prescribed after lab test results.").isValid
      = (validateMedicalDocument
        "Patient diagnosis: hypertension. Treatment plan and medication prescribed after lab test results.").isValid
    ∧ (validateMedicalDocument
        "Patient diagnosis: hypertension. Treatment plan and medication prescribed after lab test results.").warnings
      = (validateMedicalDocument
        "Patient diagnosis: hypertension. Treatment plan and medication prescribed after lab test results.").warnings
    ∧ (validateMedicalDocument
        "Patient diagnosis: hypertension. Treatment plan and medication prescribed after lab test results.").suggestions
      = (validateMedicalDocument
        "Patient diagnosis: hypertension. Treatment plan and medication prescribed after lab test results.").suggestions :=
  validateMedicalDocument_deterministic _ _ rfl

/-- C10: every processed document reports `wordCount ≥ 1` because
`text.split(/\s+/)` always yields at least one piece; in particular a text
file with empty content reports `wordCount = 1`, not 0. -/
theorem wordCount_at_least_one (pd : PdfData) (mr : MammothResult) (od : OcrData)
    (f : JsFile) :
    1 ≤ (processPDF pd).metadata.wordCount
    ∧ 1 ≤ (processWordDocument mr).metadata.wordCount
    ∧ 1 ≤ (processImageWithOCR od).metadata.wordCount
    ∧ 1 ≤ (processTextFile f).metadata.wordCount
    ∧ (f.content = "" → (processTextFile f).metadata.wordCount = 1) := by
  refine ⟨jsSplitWsGo_length_pos _ _ _, jsSplitWsGo_length_pos _ _ _,
    jsSplitWsGo_length_pos _ _ _, jsSplitWsGo_length_pos _ _ _, ?_⟩
  intro h
  show jsWordCount f.content = 1
  rw [h]
  decide

/-- Witness for C10: an empty PDF text and an empty text file both report
`wordCount = 1`. -/
theorem wordCount_at_least_one_witness :
    1 ≤ (processPDF ⟨"", 0⟩).metadata.wordCount
    ∧ (processTextFile ⟨2, "empty.txt", 0, "text/plain", ""⟩).metadata.wordCount = 1 :=
  ⟨(wordCount_at_least_one ⟨"", 0⟩ ⟨""⟩ ⟨"", 0, ""⟩
      ⟨2, "empty.txt", 0, "text/plain", ""⟩).1,
   (wordCount_at_least_one ⟨"", 0⟩ ⟨""⟩ ⟨"", 0, ""⟩
      ⟨2, "empty.txt", 0, "text/plain", ""⟩).2.2.2.2 rfl⟩

/-- Dropping leading whitespace cannot pass a non-whitespace character. -/
theorem dropWhile_ws_append (as bs : List Char) (c : Char) (hc : c.isWhitespace = false) :
    List.dropWhile Char.isWhitespace (as ++ c :: bs)
      = List.dropWhile Char.isWhitespace as ++ c :: bs := by
  induction as with
  | nil => simp [List.dropWhile_cons, hc]
  | cons a as ih =>
      by_cases ha : a.isWhitespace = true
      · simp [List.dropWhile_cons, ha, ih]
      · simp [List.dropWhile_cons, ha]

/-- Removing trailing whitespace cannot pass a non-whitespace character. -/
theorem rmTrailing_append (xs ys : List Char) (c : Char) (hc : c.isWhitespace = false) :
    rmTrailing (xs ++ c :: ys) = xs ++ c :: rmTrailing ys := by
  unfold rmTrailing
  rw [show (xs ++ c :: ys).reverse = ys.reverse ++ c :: xs.reverse from by simp]
  rw [dropWhile_ws_append _ _ _ hc]
  simp

/-- `trim` of a string that starts and ends next to non-whitespace anchors:
only the part after the last anchor is affected. -/
theorem jsTrim_shape_generic (A B : List Char) (c₀ c₁ : Char)
    (h₀ : c₀.isWhitespace = false) (h₁ : c₁.isWhitespace = false) :
    rmTrailing (List.dropWhile Char.isWhitespace (c₀ :: (A ++ c₁ :: B)))
      = c₀ :: (A ++ c₁ :: rmTrailing B) := by
  rw [List.dropWhile_cons_of_neg (by simp [h₀])]
  rw [← List.cons_append, rmTrailing_append _ _ _ h₁, List.cons_append]

/-- Shape of the trimmed fallback summary: the leading `P` survives the left
trim, and the right trim only reaches into the rendered timestamp after the
final colon of `Generated:`. -/
theorem localFallbackSummary_data (env : JsEnv) (p : Patient) (docs : List Document) :
    (localFallbackSummary env p docs).data =
      'P' :: ("atient Summary for ".data ++ p.firstName.data ++ " ".data ++ p.lastName.data
        ++ (demographicsPart env p).data ++ (overviewPart env docs).data
        ++ (allDocsPart env docs).data ++ closingLit.data
        ++ ':' :: rmTrailing (' ' :: env.nowString.data)) := by
  have hdata : ("Patient Summary for " ++ p.firstName ++ " " ++ p.lastName
      ++ demographicsPart env p ++ overviewPart env docs ++ allDocsPart env docs
      ++ closingLit ++ ": " ++ env.nowString).data
      = 'P' :: (("atient Summary for ".data ++ p.firstName.data ++ " ".data ++ p.lastName.data
        ++ (demographicsPart env p).data ++ (overviewPart env docs).data
        ++ (allDocsPart env docs).data ++ closingLit.data)
        ++ ':' :: (' ' :: env.nowString.data)) := by
    simp [String.data_append, List.append_assoc]
  unfold localFallbackSummary jsTrim
  rw [show (∀ l : List Char, (String.mk l).data = l) from fun _ => rfl]
  rw [hdata]
  rw [jsTrim_shape_generic _ _ _ _ (by decide) (by decide)]

/-- C7: with the remote summarization endpoint unconfigured the generator
returns the local fallback, and that text contains the patient's full name,
the medical record number, and a `Documents Overview` section listing the
exact number of documents supplied. -/
theorem unconfigured_summary_contains_patient_fields (cfg : AzureAICfg)
    (remote : RemoteOutcome) (env : JsEnv) (p : Patient) (docs : List Document)
    (h : azureConfigured cfg = false) :
    generatePatientSummary cfg remote env p docs = localFallbackSummary env p docs
    ∧ (∃ pre post, (generatePatientSummary cfg remote env p docs).data
        = pre ++ (p.firstName ++ " " ++ p.lastName).data ++ post)
    ∧ (∃ pre post, (generatePatientSummary cfg remote env p docs).data
        = pre ++ p.medicalRecordNumber.data ++ post)
    ∧ (∃ pre post, (generatePatientSummary cfg remote env p docs).data
        = pre ++ ("Documents Overview:\n- Total Documents: "
            ++ toString docs.length).data ++ post) := by
  have hfb : generatePatientSummary cfg remote env p docs
      = localFallbackSummary env p docs := by
    simp [generatePatientSummary, h]
  refine ⟨hfb, ?_, ?_, ?_⟩
  · rw [hfb, localFallbackSummary_data]
    refine ⟨'P' :: ("atient Summary for ".data),
      (demographicsPart env p).data ++ (overviewPart env docs).data
        ++ (allDocsPart env docs).data ++ closingLit.data
        ++ ':' :: rmTrailing (' ' :: env.nowString.data), ?_⟩
    simp only [String.data_append, List.cons_append, List.append_assoc]
  · rw [hfb, localFallbackSummary_data]
    refine ⟨'P' :: ("atient Summary for ".data ++ p.firstName.data ++ " ".data
        ++ p.lastName.data ++ "\n\nDemographics:\n- Medical Record Number: ".data),
      "\n- Date of Birth: ".data ++ (env.localeDateString p.dateOfBirth).data
        ++ "\n- Age: ".data ++ (toString (env.ageOf p.dateOfBirth)).data
        ++ " years\n".data
        ++ (if jsTruthy p.email then "- Email: " ++ p.email.getD "" ++ "\n" else "").data
        ++ (if jsTruthy p.phone then "- Phone: " ++ p.phone.getD "" ++ "\n" else "").data
        ++ (if jsTruthy p.address then "- Address: " ++ p.address.getD "" ++ "\n" else "").data
        ++ (overviewPart env docs).data ++ (allDocsPart env docs).data ++ closingLit.data
        ++ ':' :: rmTrailing (' ' :: env.nowString.data), ?_⟩
    simp only [demographicsPart, String.data_append, List.cons_append, List.append_assoc]
  · obtain ⟨tailL, hov⟩ : ∃ tailL : List Char, (overviewPart env docs).data
        = '\n' :: '\n' :: (("Documents Overview:\n- Total Documents: "
            ++ toString docs.length).data ++ tailL) := by
      cases docs with
      | nil =>
          refine ⟨['\n'], ?_⟩
          simp [overviewPart, String.data_append, List.append_assoc]
      | cons d ds =>
          refine ⟨'\n' :: ("- Most Recent Upload: ".data
              ++ (env.localeDateTimeString d.createdAt).data ++ "\n".data
              ++ "- Document Types: ".data
              ++ (String.intercalate ", "
                  ((byType (d :: ds)).map
                    (fun ta => ta.1 ++ " (" ++ toString ta.2.length ++ ")"))).data
              ++ "\n".data), ?_⟩
          simp [overviewPart, String.data_append, List.append_assoc]
    rw [hfb, localFallbackSummary_data, hov]
    refine ⟨'P' :: ("atient Summary for ".data ++ p.firstName.data ++ " ".data
        ++ p.lastName.data ++ (demographicsPart env p).data ++ ['\n', '\n']),
      tailL ++ (allDocsPart env docs).data ++ closingLit.data
        ++ ':' :: rmTrailing (' ' :: env.nowString.data), ?_⟩
    simp only [String.data_append, List.cons_append, List.nil_append, List.append_assoc]

/-- Witness for C7: the spec's scenario at a concrete unconfigured
environment, patient Jane Doe, and an empty document list. -/
theorem unconfigured_summary_contains_patient_fields_witness :
    generatePatientSummary cfgNone (RemoteOutcome.netFail "unused") envT1 patientJane []
      = localFallbackSummary envT1 patientJane []
    ∧ (∃ pre post,
        (generatePatientSummary cfgNone (RemoteOutcome.netFail "unused") envT1 patientJane []).data
          = pre ++ (patientJane.firstName ++ " " ++ patientJane.lastName).data ++ post)
    ∧ (∃ pre post,
        (generatePatientSummary cfgNone (RemoteOutcome.netFail "unused") envT1 patientJane []).data
          = pre ++ patientJane.medicalRecordNumber.data ++ post)
    ∧ (∃ pre post,
        (generatePatientSummary cfgNone (RemoteOutcome.netFail "unused") envT1 patientJane []).data
          = pre ++ ("Documents Overview:\n- Total Documents: "
              ++ toString ([] : List Document).length).data ++ post) :=
  unconfigured_summary_contains_patient_fields cfgNone (RemoteOutcome.netFail "unused")
    envT1 patientJane [] (by decide)

/-- C4 (amended): with the remote endpoint unconfigured the generator returns
the local fallback, and the fallback is a pure function of the stored data and
the `Date` environment of the invocation instant: two invocations with the
same date environment return identical strings, whatever the remote oracle.
(It is NOT invariant across instants — see the counterexample — because the
template embeds `Generated: ${new Date().toLocaleString()}` and computes the
age from the current date.) -/
theorem fallback_deterministic_at_fixed_instant (cfg : AzureAICfg)
    (remote remote₂ : RemoteOutcome) (env env₂ : JsEnv) (p : Patient)
    (docs : List Document) (h : azureConfigured cfg = false) (henv : env = env₂) :
    generatePatientSummary cfg remote env p docs
      = generatePatientSummary cfg remote₂ env₂ p docs
    ∧ generatePatientSummary cfg remote env p docs = localFallbackSummary env p docs := by
  subst henv
  have hfb : ∀ r, generatePatientSummary cfg r env p docs
      = localFallbackSummary env p docs := by
    intro r
    simp [generatePatientSummary, h]
  exact ⟨(hfb remote).trans (hfb remote₂).symm, hfb remote⟩

/-- Witness for C4's amended statement at concrete inputs. -/
theorem fallback_deterministic_at_fixed_instant_witness :
    generatePatientSummary cfgNone (RemoteOutcome.netFail "a") envT1 patientJane []
      = generatePatientSummary cfgNone (RemoteOutcome.success (some "ignored")) envT1 patientJane []
    ∧ generatePatientSummary cfgNone (RemoteOutcome.netFail "a") envT1 patientJane []
        = localFallbackSummary envT1 patientJane [] :=
  fallback_deterministic_at_fixed_instant cfgNone (RemoteOutcome.netFail "a")
    (RemoteOutcome.success (some "ignored")) envT1 envT1 patientJane [] (by decide) rfl

/-- C4 (counterexample): the same patient and the same (empty) document list,
summarized at two different invocation instants, produce different fallback
strings — the `Generated:` timestamp line differs — so the local fallback is
not reproducible from stored data alone. -/
theorem fallback_differs_across_invocation_times :
    azureConfigured cfgNone = false
    ∧ generatePatientSummary cfgNone (RemoteOutcome.netFail "unused") envT1 patientJane []
        ≠ generatePatientSummary cfgNone (RemoteOutcome.netFail "unused") envT2 patientJane [] := by
  constructor
  · rfl
  · decide
